import Mathlib

/-!
Verification development for the i3-github-bot repository.

The development shallowly embeds the two regular expressions of
`src/version.go` (`reMajorVersion` and `stripConfigLine`) as hand-compiled
backtracking matchers with Go's leftmost-first semantics, the numeric-aware
collation used to pick the highest version, the classifier regexps and the
two webhook pipelines of the AppEngine handler file, together with the
HMAC-verification wrapper `readAndVerifyBody`.
-/

namespace I3Bot

abbrev Chars := List Char

/-- RE2 character class `\s`, i.e. `[\t\n\f\r ]`. -/
def isSpaceRE (c : Char) : Bool :=
  c = ' ' || c = '\t' || c = '\n' || c = '\x0c' || c = '\r'

def isDigitC (c : Char) : Bool :=
  '0' ≤ c && c ≤ '9'

def isAtoE (c : Char) : Bool :=
  'a' ≤ c && c ≤ 'e'

/-- Code point ranges of the Unicode script `Greek` (for `\p{Greek}`). -/
def greekRanges : List (Nat × Nat) :=
  [(0x0370, 0x0373), (0x0375, 0x0377), (0x037A, 0x037D), (0x037F, 0x037F),
   (0x0384, 0x0384), (0x0386, 0x0386), (0x0388, 0x038A), (0x038C, 0x038C),
   (0x038E, 0x03A1), (0x03A3, 0x03E1), (0x03F0, 0x03FF), (0x1D26, 0x1D2A),
   (0x1D5D, 0x1D61), (0x1D66, 0x1D6A), (0x1DBF, 0x1DBF), (0x1F00, 0x1F15),
   (0x1F18, 0x1F1D), (0x1F20, 0x1F45), (0x1F48, 0x1F4D), (0x1F50, 0x1F57),
   (0x1F59, 0x1F59), (0x1F5B, 0x1F5B), (0x1F5D, 0x1F5D), (0x1F5F, 0x1F7D),
   (0x1F80, 0x1FB4), (0x1FB6, 0x1FC4), (0x1FC6, 0x1FD3), (0x1FD6, 0x1FDB),
   (0x1FDD, 0x1FEF), (0x1FF2, 0x1FF4), (0x1FF6, 0x1FFE), (0x2126, 0x2126),
   (0xAB65, 0xAB65), (0x10140, 0x1018E), (0x101A0, 0x101A0), (0x1D200, 0x1D245)]

def isGreek (c : Char) : Bool :=
  greekRanges.any (fun r => r.1 ≤ c.toNat && c.toNat ≤ r.2)

/-- Strip a literal from the front of the input (fails when it is not there). -/
def dropLit : Chars → Chars → Option Chars
  | [], s => some s
  | _ :: _, [] => none
  | p :: ps, c :: cs => if c = p then dropLit ps cs else none

/-- Greedy `:?` with backtracking into the continuation. -/
def tryColonOpt (k : Chars → Option α) : Chars → Option α
  | ':' :: rest => (k rest).orElse (fun _ => k (':' :: rest))
  | s => k s

/-- Greedy `\s*` with backtracking into the continuation (longest match first). -/
def trySpaceStar (k : Chars → Option α) : Chars → Option α
  | [] => k []
  | c :: rest =>
    if isSpaceRE c then (trySpaceStar k rest).orElse (fun _ => k (c :: rest))
    else k (c :: rest)

/-- The optional keyword group `(?:version|v|vers|ver)?`, alternatives tried in
source order, the empty alternative last (greedy `?`). -/
def tryVerKeyword (k : Chars → Option α) (s : Chars) : Option α :=
  ((dropLit "version".data s).bind k).orElse (fun _ =>
  ((dropLit "v".data s).bind k).orElse (fun _ =>
  ((dropLit "vers".data s).bind k).orElse (fun _ =>
  ((dropLit "ver".data s).bind k).orElse (fun _ => k s))))

/-- The third token alternative `[0-9]\.[0-9]+` (greedy final `+`). -/
def genericToken : Chars → Option (Chars × Chars)
  | d :: '.' :: rest =>
    if isDigitC d then
      let ds := rest.takeWhile isDigitC
      if ds = [] then none
      else some (d :: '.' :: ds, rest.dropWhile isDigitC)
    else none
  | _ => none

/-- The version-token alternation `3\.[a-e]|3\.\p{Greek}|[0-9]\.[0-9]+`,
alternatives tried in source order. Returns the token and the rest. -/
def versionToken : Chars → Option (Chars × Chars)
  | '3' :: '.' :: c :: rest =>
    if isAtoE c then some (['3', '.', c], rest)
    else if isGreek c then some (['3', '.', c], rest)
    else genericToken ('3' :: '.' :: c :: rest)
  | s => genericToken s

/-- Everything of `reMajorVersion` after the product name:
`:?\s*(?:version|v|vers|ver)?:?\s*(token)`. -/
def matchTail (s : Chars) : Option (Chars × Chars) :=
  tryColonOpt (trySpaceStar (tryVerKeyword (tryColonOpt (trySpaceStar versionToken)))) s

/-- Match one product alternative followed by the tail. -/
def matchProd (p : String) (s : Chars) : Option (Chars × Chars × Chars) :=
  (dropLit p.data s).bind (fun s1 =>
    (matchTail s1).map (fun tr => (p.data, tr.1, tr.2)))

/-- Match `reMajorVersion` at the start of `s`. Leftmost-first alternation over
the product names `i3|i3status|i3lock`, exactly as Go's regexp engine tries
them. Returns (product, version, rest after the match). -/
def matchAt (s : Chars) : Option (Chars × Chars × Chars) :=
  (matchProd "i3" s).orElse (fun _ =>
  (matchProd "i3status" s).orElse (fun _ =>
  matchProd "i3lock" s))

/-- One submatch record of `reMajorVersion`: the whole match (group 0), the
product name (group 1) and the version token (group 2). -/
structure RegexMatch where
  full : Chars
  prod : Chars
  ver : Chars
deriving DecidableEq

/-- `FindAllStringSubmatch(body, -1)`: successive leftmost non-overlapping
matches. Every match consumes at least one character, so fuel `length + 1`
never runs out. -/
def findAllAux : Nat → Chars → List RegexMatch
  | 0, _ => []
  | _ + 1, [] => []
  | fuel + 1, c :: rest =>
    match matchAt (c :: rest) with
    | some (p, v, r) =>
      { full := (c :: rest).take ((c :: rest).length - r.length), prod := p, ver := v } ::
        findAllAux fuel r
    | none => findAllAux fuel rest

def reMajorVersionAll (s : Chars) : List RegexMatch :=
  findAllAux (s.length + 1) s

/-! The `stripConfigLine` regular expression. -/

/-- Match `\s*$` in `(?m)` mode: greedy whitespace, backtracking until the
end-of-line anchor holds (end of input or just before a newline). Returns the
rest of the input after the match end. -/
def spaceStarEol : Chars → Option Chars
  | [] => some []
  | c :: rest =>
    if isSpaceRE c then
      (spaceStarEol rest).orElse (fun _ => if c = '\n' then some (c :: rest) else none)
    else if c = '\n' then some (c :: rest) else none

/-- `[0-9]+` (greedy, followed by a non-digit literal in this pattern, so the
maximal munch is exact). -/
def digitRun : Chars → Option Chars
  | [] => none
  | c :: rest => if isDigitC c then some (rest.dropWhile isDigitC) else none

/-- The unescaped `.` of `config_parser.c` (any character but newline). -/
def anyNoNl : Chars → Option Chars
  | [] => none
  | c :: rest => if c = '\n' then none else some rest

/-- Match the `stripConfigLine` pattern at the start of `s`, returning the rest
after the match. -/
def stripConfigAt (s : Chars) : Option Chars :=
  (dropLit " - config_parser".data s).bind (fun s1 =>
  (anyNoNl s1).bind (fun s2 =>
  (dropLit "c:parse_config:".data s2).bind (fun s3 =>
  (digitRun s3).bind (fun s4 =>
  (dropLit " - CONFIG(line ".data s4).bind (fun s5 =>
  (digitRun s5).bind (fun s6 =>
  (dropLit "): # Before i3 v4.8, we used to recommend this one as the default:".data s6).bind
    spaceStarEol))))))

/-- `ReplaceAllString(body, "")`: delete every leftmost non-overlapping match.
Each match consumes at least one character, so fuel `length + 1` suffices. -/
def stripConfigAll : Nat → Chars → Chars
  | 0, s => s
  | _ + 1, [] => []
  | fuel + 1, c :: rest =>
    match stripConfigAt (c :: rest) with
    | some r => stripConfigAll fuel r
    | none => c :: stripConfigAll fuel rest

def stripConfigLine (s : Chars) : Chars :=
  stripConfigAll (s.length + 1) s

/-! Numeric-aware collation (`collate.New(language.Und, collate.Numeric)`),
modelled on the version-token alphabet: `.` sorts before digit runs, digit
runs (compared by numeric value) before Latin letters, Latin before Greek. -/

def natOfDigits (ds : Chars) : Nat :=
  ds.foldl (fun acc c => 10 * acc + (c.toNat - 0x30)) 0

/-- Collation key of a single non-digit character. -/
def charKey (c : Char) : Nat × Nat :=
  if c = '.' then (0, 0)
  else if isGreek c then (3, c.toNat)
  else (2, c.toNat)

/-- Collation key: maximal digit runs become `(1, value)` elements. Each step
consumes at least one character, so fuel `length` suffices. -/
def decodeKey : Nat → Chars → List (Nat × Nat)
  | 0, _ => []
  | _ + 1, [] => []
  | fuel + 1, c :: rest =>
    if isDigitC c then
      (1, natOfDigits ((c :: rest).takeWhile isDigitC)) ::
        decodeKey fuel ((c :: rest).dropWhile isDigitC)
    else charKey c :: decodeKey fuel rest

def verKey (s : Chars) : List (Nat × Nat) :=
  decodeKey s.length s

def pairLt (a b : Nat × Nat) : Bool :=
  decide (a.1 < b.1 ∨ (a.1 = b.1 ∧ a.2 < b.2))

def keyLt : List (Nat × Nat) → List (Nat × Nat) → Bool
  | x :: xs, y :: ys => pairLt x y || (x = y && keyLt xs ys)
  | xs, ys => xs.isEmpty && !ys.isEmpty

/-- The collator's strict "less" on version tokens. -/
def verLess (a b : Chars) : Bool :=
  keyLt (verKey a) (verKey b)

/-- The non-strict order used for the ascending sort (`a ≤ b` iff not `b < a`). -/
def verLE (a b : Chars) : Prop :=
  verLess b a = false

instance : DecidableRel verLE := fun a b => by
  unfold verLE; infer_instance

/-- `SortStrings`: ascending insertion sort under the collator order. -/
def sortVersions (vs : List Chars) : List Chars :=
  List.insertionSort verLE vs

/-- The loop body of `extractVersion`: collect the version tokens as long as
every match is for the first program; `none` signals the early return on a
second product. -/
def collectVersions (firstProgram : Chars) : List RegexMatch → Option (List Chars)
  | [] => some []
  | m :: ms =>
    if m.prod = firstProgram then
      (collectVersions firstProgram ms).map (fun vs => m.ver :: vs)
    else none

/-- `extractVersion` from `src/version.go`: strip the config-file false
positive, find all matches, return the first raw submatch when several
products occur, otherwise the numerically-highest version of the single
product (empty group 0, product, highest token). -/
def extractVersionC (body : Chars) : List Chars :=
  let stripped := stripConfigLine body
  match reMajorVersionAll stripped with
  | [] => []
  | m :: ms =>
    match collectVersions m.prod (m :: ms) with
    | none => [m.full, m.prod, m.ver]
    | some versions => [[], m.prod, (sortVersions versions).getLastD []]

def extractVersion (body : String) : List String :=
  (extractVersionC body.data).map (fun l => String.mk l)

/-- Well-formedness of a version token: either the legacy `3.<letter/Greek>`
scheme or the `MAJOR.MINOR` digit scheme of `reMajorVersion`. -/
def isVersionTokenB : Chars → Bool
  | d :: '.' :: rest =>
    (decide (d = '3') && (match rest with | [c] => isAtoE c || isGreek c | _ => false))
      || (isDigitC d && !rest.isEmpty && rest.all isDigitC)
  | _ => false

/-! ### The collator order is a strict weak order -/

theorem pairLt_irrefl (a : Nat × Nat) : pairLt a a = false := by
  simp [pairLt]

theorem pairLt_trans {a b c : Nat × Nat} (h1 : pairLt a b = true)
    (h2 : pairLt b c = true) : pairLt a c = true := by
  simp only [pairLt, decide_eq_true_eq] at h1 h2 ⊢
  omega

theorem pairLt_tri (a b : Nat × Nat) :
    pairLt a b = true ∨ pairLt b a = true ∨ a = b := by
  simp only [pairLt, decide_eq_true_eq, Prod.ext_iff]
  omega

theorem keyLt_irrefl : ∀ a : List (Nat × Nat), keyLt a a = false
  | [] => rfl
  | x :: xs => by
    simp [keyLt, pairLt_irrefl, keyLt_irrefl xs]

theorem keyLt_trans : ∀ (a b c : List (Nat × Nat)),
    keyLt a b = true → keyLt b c = true → keyLt a c = true
  | _, [], [] => by intro _ h2; exact absurd h2 (by simp [keyLt])
  | [], [], _ :: _ => by intro h1 _; exact absurd h1 (by simp [keyLt])
  | _, _ :: _, [] => by intro _ h2; exact absurd h2 (by simp [keyLt])
  | [], _ :: _, _ :: _ => by intro _ _; simp [keyLt]
  | _ :: _, [], _ => by intro h1 _; exact absurd h1 (by simp [keyLt])
  | x :: xs, y :: ys, z :: zs => by
    intro h1 h2
    simp only [keyLt, Bool.or_eq_true, Bool.and_eq_true, decide_eq_true_eq] at h1 h2 ⊢
    rcases h1 with h1 | ⟨hxy, h1'⟩
    · rcases h2 with h2 | ⟨hyz, _⟩
      · exact Or.inl (pairLt_trans h1 h2)
      · exact Or.inl (hyz ▸ h1)
    · rcases h2 with h2 | ⟨hyz, h2'⟩
      · exact Or.inl (hxy ▸ h2)
      · exact Or.inr ⟨hxy.trans hyz, keyLt_trans xs ys zs h1' h2'⟩

theorem keyLt_tri : ∀ (a b : List (Nat × Nat)),
    keyLt a b = true ∨ keyLt b a = true ∨ a = b
  | [], [] => Or.inr (Or.inr rfl)
  | [], _ :: _ => Or.inl (by simp [keyLt])
  | _ :: _, [] => Or.inr (Or.inl (by simp [keyLt]))
  | x :: xs, y :: ys => by
    rcases pairLt_tri x y with h | h | h
    · exact Or.inl (by simp [keyLt, h])
    · exact Or.inr (Or.inl (by simp [keyLt, h]))
    · subst h
      rcases keyLt_tri xs ys with h | h | h
      · exact Or.inl (by simp [keyLt, h])
      · exact Or.inr (Or.inl (by simp [keyLt, h]))
      · exact Or.inr (Or.inr (by rw [h]))

theorem keyLt_asymm {a b : List (Nat × Nat)} (h : keyLt a b = true) :
    keyLt b a = false := by
  cases hba : keyLt b a with
  | false => rfl
  | true => exact absurd (keyLt_trans a b a h hba) (by simp [keyLt_irrefl])

theorem keyLt_negtrans {a b c : List (Nat × Nat)} (h1 : keyLt a b = false)
    (h2 : keyLt b c = false) : keyLt a c = false := by
  cases hac : keyLt a c with
  | false => rfl
  | true =>
    exfalso
    rcases keyLt_tri a b with h | h | h
    · exact absurd h (by simp [h1])
    · have : keyLt b c = true := keyLt_trans b a c h hac
      exact absurd this (by simp [h2])
    · subst h
      exact absurd hac (by simp [h2])

theorem verLE_refl (a : Chars) : verLE a a := keyLt_irrefl _

instance : IsTotal Chars verLE :=
  ⟨fun a b => by
    unfold verLE verLess
    cases h : keyLt (verKey b) (verKey a) with
    | false => exact Or.inl rfl
    | true => exact Or.inr (keyLt_asymm h)⟩

instance : IsTrans Chars verLE :=
  ⟨fun _ _ _ hab hbc => keyLt_negtrans hbc hab⟩

/-! ### The last element of the ascending sort is a maximum -/

theorem getLastD_mem {l : List α} (d : α) (h : l ≠ []) : l.getLastD d ∈ l := by
  induction l generalizing d with
  | nil => exact absurd rfl h
  | cons a l ih =>
    rw [List.getLastD_cons]
    cases l with
    | nil => simp [List.getLastD]
    | cons b m => exact List.mem_cons_of_mem a (ih b (by simp))

theorem pairwise_verLE_getLastD :
    ∀ (l : List Chars), List.Pairwise verLE l → ∀ d, l ≠ [] →
      ∀ v ∈ l, verLE v (l.getLastD d)
  | [], _, _, h, _, _ => absurd rfl h
  | [x], _, _, _, v, hv => by
    simp only [List.mem_singleton] at hv
    subst hv
    exact verLE_refl v
  | x :: y :: rest, hp, d, _, v, hv => by
    rcases List.pairwise_cons.mp hp with ⟨h1, h2⟩
    rw [List.getLastD_cons]
    rcases List.mem_cons.mp hv with rfl | hv'
    · exact h1 _ (getLastD_mem _ (by simp))
    · exact pairwise_verLE_getLastD (y :: rest) h2 x (by simp) v hv'

theorem sortVersions_max (vs : List Chars) (hne : vs ≠ []) :
    (sortVersions vs).getLastD [] ∈ vs ∧
      ∀ v ∈ vs, verLess ((sortVersions vs).getLastD []) v = false := by
  have hperm : (sortVersions vs).Perm vs := List.perm_insertionSort verLE vs
  have hsorted : List.Sorted verLE (sortVersions vs) :=
    List.sorted_insertionSort verLE vs
  have hsne : sortVersions vs ≠ [] := by
    intro h
    apply hne
    have hlen := hperm.length_eq
    rw [h] at hlen
    exact List.eq_nil_of_length_eq_zero hlen.symm
  constructor
  · exact hperm.mem_iff.mp (getLastD_mem [] hsne)
  · intro v hv
    exact pairwise_verLE_getLastD (sortVersions vs) hsorted [] hsne v
      (hperm.mem_iff.mpr hv)

/-! ### The extraction loop -/

theorem collectVersions_eq_map {p : Chars} :
    ∀ {l : List RegexMatch} {vs : List Chars},
      collectVersions p l = some vs → vs = l.map RegexMatch.ver
  | [], vs, h => by simpa [collectVersions] using h.symm
  | m :: ms, vs, h => by
    simp only [collectVersions] at h
    split at h
    · rcases Option.map_eq_some'.mp h with ⟨vs', hvs', rfl⟩
      simp [collectVersions_eq_map hvs']
    · exact absurd h (by simp)

theorem collectVersions_none {p : Chars} :
    ∀ {l : List RegexMatch}, (∃ m ∈ l, m.prod ≠ p) → collectVersions p l = none
  | [], h => absurd h (by simp)
  | m :: ms, h => by
    simp only [collectVersions]
    split
    · rename_i hmp
      rcases h with ⟨m2, hm2, hne⟩
      rcases List.mem_cons.mp hm2 with rfl | hm2'
      · exact absurd hmp hne
      · rw [collectVersions_none ⟨m2, hm2', hne⟩]
        rfl
    · rfl

/-! ### Shape invariants of the matcher -/

theorem orElse_eq_some {a : Option α} {b : Unit → Option α} {r : α}
    (h : a.orElse b = some r) : a = some r ∨ b () = some r := by
  cases a <;> simp_all [Option.orElse]

theorem genericToken_shape : ∀ {s tok rest : Chars},
    genericToken s = some (tok, rest) → isVersionTokenB tok = true := by
  intro s tok rest h
  unfold genericToken at h
  split at h
  · rename_i d r
    simp only at h
    split at h
    · split at h
      · exact absurd h (by simp)
      · rename_i hdig hds
        rw [Option.some.injEq, Prod.mk.injEq] at h
        obtain ⟨htok, -⟩ := h
        subst htok
        simp only [isVersionTokenB, hdig, Bool.true_and, List.all_takeWhile,
          Bool.and_true, Bool.or_eq_true, Bool.and_eq_true]
        right
        simpa [List.isEmpty_iff] using hds
    · exact absurd h (by simp)
  · exact absurd h (by simp)

theorem versionToken_shape : ∀ {s tok rest : Chars},
    versionToken s = some (tok, rest) → isVersionTokenB tok = true := by
  intro s tok rest h
  unfold versionToken at h
  split at h
  · rename_i c r
    split at h
    · rename_i hc
      rw [Option.some.injEq, Prod.mk.injEq] at h
      obtain ⟨htok, -⟩ := h
      subst htok
      simp [isVersionTokenB, hc]
    · split at h
      · rename_i hc
        rw [Option.some.injEq, Prod.mk.injEq] at h
        obtain ⟨htok, -⟩ := h
        subst htok
        simp [isVersionTokenB, hc]
      · exact genericToken_shape h
  · exact genericToken_shape h

theorem tryColonOpt_shape {α : Type} {P : α → Prop} {k : Chars → Option α}
    (hk : ∀ s r, k s = some r → P r) :
    ∀ s r, tryColonOpt k s = some r → P r := by
  intro s r h
  unfold tryColonOpt at h
  split at h
  · rcases orElse_eq_some h with h' | h' <;> exact hk _ _ h'
  · exact hk _ _ h

theorem trySpaceStar_shape {α : Type} {P : α → Prop} {k : Chars → Option α}
    (hk : ∀ s r, k s = some r → P r) :
    ∀ s r, trySpaceStar k s = some r → P r
  | [], r, h => hk [] r (by simpa [trySpaceStar] using h)
  | c :: rest, r, h => by
    simp only [trySpaceStar] at h
    split at h
    · rcases orElse_eq_some h with h' | h'
      · exact trySpaceStar_shape hk rest r h'
      · exact hk _ _ h'
    · exact hk _ _ h

theorem tryVerKeyword_shape {α : Type} {P : α → Prop} {k : Chars → Option α}
    (hk : ∀ s r, k s = some r → P r) :
    ∀ s r, tryVerKeyword k s = some r → P r := by
  intro s r h
  unfold tryVerKeyword at h
  rcases orElse_eq_some h with h1 | h1
  · rcases Option.bind_eq_some.mp h1 with ⟨s', -, hk'⟩
    exact hk _ _ hk'
  rcases orElse_eq_some h1 with h2 | h2
  · rcases Option.bind_eq_some.mp h2 with ⟨s', -, hk'⟩
    exact hk _ _ hk'
  rcases orElse_eq_some h2 with h3 | h3
  · rcases Option.bind_eq_some.mp h3 with ⟨s', -, hk'⟩
    exact hk _ _ hk'
  rcases orElse_eq_some h3 with h4 | h4
  · rcases Option.bind_eq_some.mp h4 with ⟨s', -, hk'⟩
    exact hk _ _ hk'
  · exact hk _ _ h4

theorem matchTail_shape {s : Chars} {tr : Chars × Chars}
    (h : matchTail s = some tr) : isVersionTokenB tr.1 = true := by
  have hbase : ∀ (s' : Chars) (r : Chars × Chars),
      versionToken s' = some r → isVersionTokenB r.1 = true := by
    intro s' r hr
    obtain ⟨tok, rest⟩ := r
    exact versionToken_shape hr
  exact tryColonOpt_shape (trySpaceStar_shape (tryVerKeyword_shape
    (tryColonOpt_shape (trySpaceStar_shape hbase)))) s tr h

theorem matchProd_shape {p : String} {s : Chars} {pd tok rest : Chars}
    (h : matchProd p s = some (pd, tok, rest)) :
    pd = p.data ∧ isVersionTokenB tok = true := by
  unfold matchProd at h
  rcases Option.bind_eq_some.mp h with ⟨s1, -, h2⟩
  rcases Option.map_eq_some'.mp h2 with ⟨tr, htr, heq⟩
  rw [Prod.mk.injEq, Prod.mk.injEq] at heq
  obtain ⟨hpd, htok, -⟩ := heq
  exact ⟨hpd.symm, htok ▸ matchTail_shape htr⟩

theorem matchAt_shape {s pd tok rest : Chars} (h : matchAt s = some (pd, tok, rest)) :
    (pd = "i3".data ∨ pd = "i3status".data ∨ pd = "i3lock".data) ∧
      isVersionTokenB tok = true := by
  unfold matchAt at h
  rcases orElse_eq_some h with h1 | h1
  · obtain ⟨hp, ht⟩ := matchProd_shape h1
    exact ⟨Or.inl hp, ht⟩
  rcases orElse_eq_some h1 with h2 | h2
  · obtain ⟨hp, ht⟩ := matchProd_shape h2
    exact ⟨Or.inr (Or.inl hp), ht⟩
  · obtain ⟨hp, ht⟩ := matchProd_shape h2
    exact ⟨Or.inr (Or.inr hp), ht⟩

theorem findAllAux_shape : ∀ (fuel : Nat) (s : Chars) (m : RegexMatch),
    m ∈ findAllAux fuel s →
    (m.prod = "i3".data ∨ m.prod = "i3status".data ∨ m.prod = "i3lock".data) ∧
      isVersionTokenB m.ver = true
  | 0, _, _, h => absurd h (by simp [findAllAux])
  | _ + 1, [], _, h => absurd h (by simp [findAllAux])
  | fuel + 1, c :: rest, m, h => by
    simp only [findAllAux] at h
    split at h
    · rename_i p v r heq
      rcases List.mem_cons.mp h with rfl | h'
      · exact matchAt_shape heq
      · exact findAllAux_shape fuel r m h'
    · exact findAllAux_shape fuel rest m h

theorem reMajorVersionAll_shape {s : Chars} {m : RegexMatch}
    (h : m ∈ reMajorVersionAll s) :
    (m.prod = "i3".data ∨ m.prod = "i3status".data ∨ m.prod = "i3lock".data) ∧
      isVersionTokenB m.ver = true :=
  findAllAux_shape _ s m h

theorem mk_data (s : String) : String.mk s.data = s := rfl

theorem extractVersionC_eq {body : Chars} {m : RegexMatch} {ms : List RegexMatch}
    (hall : reMajorVersionAll (stripConfigLine body) = m :: ms) :
    extractVersionC body =
      match collectVersions m.prod (m :: ms) with
      | none => [m.full, m.prod, m.ver]
      | some versions => [[], m.prod, (sortVersions versions).getLastD []] := by
  simp only [extractVersionC]
  rw [hall]

/-! ### The extraction claims -/

/-- C1: on a text whose matches all name one product and whose tokens include
both "4.9" and "4.10", extractVersion returns that product together with a
token that is maximal under the numeric-aware collation order — in
particular not "4.9", because "4.9" sorts strictly below "4.10". -/
theorem extractVersion_numeric_max (t : String) (m : RegexMatch)
    (ms : List RegexMatch) (vs : List Chars)
    (hall : reMajorVersionAll (stripConfigLine t.data) = m :: ms)
    (hcol : collectVersions m.prod (m :: ms) = some vs)
    (h49 : "4.9".data ∈ vs) (h410 : "4.10".data ∈ vs) :
    ∃ best, extractVersion t = ["", String.mk m.prod, String.mk best] ∧
      best ∈ vs ∧ (∀ v ∈ vs, verLess best v = false) ∧ best ≠ "4.9".data := by
  have hvs_ne : vs ≠ [] := by rintro rfl; simp at h49
  obtain ⟨hmem, hmax⟩ := sortVersions_max vs hvs_ne
  refine ⟨(sortVersions vs).getLastD [], ?_, hmem, hmax, ?_⟩
  · unfold extractVersion
    rw [extractVersionC_eq hall, hcol]
    rfl
  · intro hbest
    have h1 : verLess ((sortVersions vs).getLastD []) "4.10".data = false :=
      hmax _ h410
    have h2 : verLess "4.9".data "4.10".data = true := by decide
    rw [hbest, h2] at h1
    exact absurd h1 (by decide)

set_option maxRecDepth 40000 in
/-- C1 witness: "i3 4.9 i3 4.10" extracts the numerically higher "4.10". -/
theorem extractVersion_numeric_max_witness :
    ∃ best, extractVersion "i3 4.9 i3 4.10" = ["", String.mk "i3".data, String.mk best] ∧
      best ∈ ["4.9".data, "4.10".data] ∧
      (∀ v ∈ ["4.9".data, "4.10".data], verLess best v = false) ∧
      best ≠ "4.9".data :=
  extractVersion_numeric_max "i3 4.9 i3 4.10"
    ⟨"i3 4.9".data, "i3".data, "4.9".data⟩
    [⟨"i3 4.10".data, "i3".data, "4.10".data⟩]
    ["4.9".data, "4.10".data]
    (by decide) (by decide) (by decide) (by decide)

/-- `extractVersion` is empty exactly when the stripped text has no match. -/
theorem extractVersion_eq_nil_iff (t : String) :
    extractVersion t = [] ↔ reMajorVersionAll (stripConfigLine t.data) = [] := by
  constructor
  · intro h
    by_contra hne
    obtain ⟨m, ms, hall⟩ := List.exists_cons_of_ne_nil hne
    unfold extractVersion at h
    rw [extractVersionC_eq hall] at h
    cases hcol : collectVersions m.prod (m :: ms) with
    | none => rw [hcol] at h; simp at h
    | some vs => rw [hcol] at h; simp at h
  · intro h
    unfold extractVersion
    simp only [extractVersionC]
    rw [h]
    rfl

/-- C7: extractVersion runs the false-positive strip pass before matching,
so it returns the empty result exactly when the stripped text has no
`reMajorVersion` match; the witness instantiates this at the boilerplate
"Before i3 v4.8, we used to recommend…" log line, which does match the raw
regular expression but is removed by the strip pass. -/
theorem extractVersion_strips_before_matching (t : String) :
    extractVersion t = [] ↔ reMajorVersionAll (stripConfigLine t.data) = [] :=
  extractVersion_eq_nil_iff t

/-- The body of the repository's own false-positive regression test. -/
def logFalsePositiveBody : String :=
  "\nHere is an extract from my log:\n\n```\n03/28/2015 10:21:22 PM - config_parser.c:parse_config:313 - CONFIG(line 22): # Before i3 v4.8, we used to recommend this one as the default:\n```\n\nNot sure which version it is, though.\n"

set_option maxRecDepth 200000 in
/-- C7 witness: the boilerplate line matches the raw regular expression but
the whole text extracts to the empty result. -/
theorem extractVersion_strips_before_matching_witness :
    extractVersion logFalsePositiveBody = [] ∧
      reMajorVersionAll logFalsePositiveBody.data ≠ [] :=
  ⟨(extractVersion_strips_before_matching logFalsePositiveBody).mpr (by decide),
   by decide⟩

/-- C8: when the matches span more than one product name, extractVersion
returns the first raw submatch (full match text, product, version). -/
theorem extractVersion_multi_product_first (t : String) (m : RegexMatch)
    (ms : List RegexMatch)
    (hall : reMajorVersionAll (stripConfigLine t.data) = m :: ms)
    (hmulti : ∃ m2 ∈ ms, m2.prod ≠ m.prod) :
    extractVersion t = [String.mk m.full, String.mk m.prod, String.mk m.ver] := by
  have hnone : collectVersions m.prod (m :: ms) = none := by
    obtain ⟨m2, hm2, hne⟩ := hmulti
    exact collectVersions_none ⟨m2, List.mem_cons_of_mem _ hm2, hne⟩
  unfold extractVersion
  rw [extractVersionC_eq hall, hnone]
  rfl

set_option maxRecDepth 40000 in
/-- C8 witness: "i3: 4.10 i3lock: 2.1" extracts only the first product. -/
theorem extractVersion_multi_product_first_witness :
    extractVersion "i3: 4.10 i3lock: 2.1" = ["i3: 4.10", "i3", "4.10"] :=
  extractVersion_multi_product_first "i3: 4.10 i3lock: 2.1"
    ⟨"i3: 4.10".data, "i3".data, "4.10".data⟩
    [⟨"i3lock: 2.1".data, "i3lock".data, "2.1".data⟩]
    (by decide)
    ⟨⟨"i3lock: 2.1".data, "i3lock".data, "2.1".data⟩, by decide, by decide⟩

/-- C10: extractVersion always returns either the empty list or a list of
exactly three strings whose middle element is one of the product names and
whose last element is a well-formed version token; the first element is
empty in the single-product case and is otherwise the full text of the
first raw match. -/
theorem extractVersion_wellformed (t : String) :
    extractVersion t = [] ∨
      ∃ a p v, extractVersion t = [a, p, v] ∧
        (p = "i3" ∨ p = "i3status" ∨ p = "i3lock") ∧
        isVersionTokenB v.data = true ∧
        (a = "" ∨ (reMajorVersionAll (stripConfigLine t.data)).head? =
          some ⟨a.data, p.data, v.data⟩) := by
  cases hall : reMajorVersionAll (stripConfigLine t.data) with
  | nil => exact Or.inl ((extractVersion_eq_nil_iff t).mpr hall)
  | cons m ms =>
    right
    have hm0 : m ∈ reMajorVersionAll (stripConfigLine t.data) := by
      rw [hall]; exact List.mem_cons_self _ _
    obtain ⟨hprod, hver⟩ := reMajorVersionAll_shape hm0
    have hprodS : String.mk m.prod = "i3" ∨ String.mk m.prod = "i3status" ∨
        String.mk m.prod = "i3lock" := by
      rcases hprod with h | h | h
      · exact Or.inl (by rw [h])
      · exact Or.inr (Or.inl (by rw [h]))
      · exact Or.inr (Or.inr (by rw [h]))
    cases hcol : collectVersions m.prod (m :: ms) with
    | none =>
      refine ⟨String.mk m.full, String.mk m.prod, String.mk m.ver, ?_, hprodS, hver, ?_⟩
      · unfold extractVersion
        rw [extractVersionC_eq hall, hcol]
        rfl
      · right
        rfl
    | some vs =>
      have hvs := collectVersions_eq_map hcol
      have hvs_ne : vs ≠ [] := by rw [hvs]; simp
      obtain ⟨hmem, -⟩ := sortVersions_max vs hvs_ne
      have hmem' : (sortVersions vs).getLastD [] ∈
          List.map RegexMatch.ver (m :: ms) := by
        rw [← hvs]
        exact hmem
      obtain ⟨mm, hmm, hmmver⟩ := List.mem_map.mp hmem'
      have hmm' : mm ∈ reMajorVersionAll (stripConfigLine t.data) := by
        rw [hall]; exact hmm
      obtain ⟨-, hverm⟩ := reMajorVersionAll_shape hmm'
      rw [hmmver] at hverm
      refine ⟨"", String.mk m.prod, String.mk ((sortVersions vs).getLastD []),
        ?_, hprodS, hverm, Or.inl rfl⟩
      unfold extractVersion
      rw [extractVersionC_eq hall, hcol]
      rfl

/-! ### Classifier regular expressions (AppEngine handler file) -/

/-- Atoms of the fixed classifier patterns: literal characters, `\s*`, and the
newline-excluding optional `.?`. -/
inductive PatAtom
  | lit (c : Char)
  | ws
  | anyOpt
deriving DecidableEq

def litAtoms (s : String) : List PatAtom :=
  s.data.map PatAtom.lit

/-- Does the pattern match a prefix of the input (with backtracking)?
Every step shortens the pattern or the input, so fuel
`p.length + s.length + 1` never runs out. -/
def matchHere : Nat → List PatAtom → Chars → Bool
  | 0, _, _ => false
  | _ + 1, [], _ => true
  | fuel + 1, PatAtom.lit c :: ps, x :: xs => x = c && matchHere fuel ps xs
  | _ + 1, PatAtom.lit _ :: _, [] => false
  | fuel + 1, PatAtom.ws :: ps, [] => matchHere fuel ps []
  | fuel + 1, PatAtom.ws :: ps, x :: xs =>
    matchHere fuel ps (x :: xs) || (isSpaceRE x && matchHere fuel (PatAtom.ws :: ps) xs)
  | fuel + 1, PatAtom.anyOpt :: ps, [] => matchHere fuel ps []
  | fuel + 1, PatAtom.anyOpt :: ps, x :: xs =>
    matchHere fuel ps (x :: xs) || (x ≠ '\n' && matchHere fuel ps xs)

/-- `MatchString`: does the pattern match anywhere in the input? -/
def matchAnywhereB (p : List PatAtom) : Chars → Bool
  | [] => matchHere (p.length + 1) p []
  | c :: rest =>
    matchHere (p.length + (c :: rest).length + 1) p (c :: rest) || matchAnywhereB p rest

/-- `enhancementRegexp = \[\s*x\s*\]\s*feature\s*request` -/
def enhancementPat : List PatAtom :=
  [PatAtom.lit '[', PatAtom.ws, PatAtom.lit 'x', PatAtom.ws, PatAtom.lit ']', PatAtom.ws] ++
    litAtoms "feature" ++ [PatAtom.ws] ++ litAtoms "request"

/-- `enhancementRegexpTitle = feature.?request|enhancement` -/
def enhancementTitleMatch (s : Chars) : Bool :=
  matchAnywhereB (litAtoms "feature" ++ [PatAtom.anyOpt] ++ litAtoms "request") s ||
    matchAnywhereB (litAtoms "enhancement") s

/-- `newConfigurationRegexp = \[\s*x\s*\]\s*this\s*feature\s*requires\s*new\s*configuration` -/
def newConfigurationPat : List PatAtom :=
  [PatAtom.lit '[', PatAtom.ws, PatAtom.lit 'x', PatAtom.ws, PatAtom.lit ']', PatAtom.ws] ++
    litAtoms "this" ++ [PatAtom.ws] ++ litAtoms "feature" ++ [PatAtom.ws] ++
    litAtoms "requires" ++ [PatAtom.ws] ++ litAtoms "new" ++ [PatAtom.ws] ++
    litAtoms "configuration"

/-- `bugRegexp = \[\s*x\s*\]\s*bug` -/
def bugPat : List PatAtom :=
  [PatAtom.lit '[', PatAtom.ws, PatAtom.lit 'x', PatAtom.ws, PatAtom.lit ']', PatAtom.ws] ++
    litAtoms "bug"

/-- `documentationRegexp = \[\s*x\s*\]\s*documentation\s*request` -/
def documentationPat : List PatAtom :=
  [PatAtom.lit '[', PatAtom.ws, PatAtom.lit 'x', PatAtom.ws, PatAtom.lit ']', PatAtom.ws] ++
    litAtoms "documentation" ++ [PatAtom.ws] ++ litAtoms "request"

/-- `strings.ToLower`, restricted to the ASCII range actually exercised by the
classifier patterns. -/
def lowerAscii (s : Chars) : Chars :=
  s.map (fun c => if 'A' ≤ c && c ≤ 'Z' then Char.ofNat (c.toNat + 32) else c)

/-- `strings.Contains` with a literal needle. -/
def containsStr (needle : String) (s : Chars) : Bool :=
  matchAnywhereB (litAtoms needle) s

/-! ### The tracker-effect model -/

/-- One attempted call against the GitHub API. -/
inductive ApiCall
  | addLabels (label : String)
  | removeLabel (label : String)
  | createComment (body : String)
  | listMilestones
  | editIssue (state : String) (reason : String)
deriving DecidableEq

/-- Trace markers for the verify-then-parse ordering of the handlers. -/
inductive HStep
  | hashedBody
  | jsonParsed
deriving DecidableEq

/-- The environment: which API attempt (by sequence number) fails, the closed
milestone titles the tracker would return, and whether the credential load
fails. -/
structure Env where
  fail : Nat → Bool
  milestones : List String
  tokenLoadFails : Bool

/-- Observable handler state: the tracker's durable label set, the attempted
API calls in order, successfully posted comments, close state, the
`http.Error` reports, and the verify/parse trace. -/
structure St where
  labels : List String
  calls : List ApiCall
  comments : List String
  closed : Bool
  closedReason : Option String
  errors : List String
  trace : List HStep
deriving DecidableEq

def initSt (labels : List String) : St :=
  { labels := labels, calls := [], comments := [], closed := false,
    closedReason := none, errors := [], trace := [] }

/-- `addLabel`: skip the API request when the label is already in the payload
snapshot; otherwise attempt `AddLabelsToIssue` and report failures through
`http.Error`. Returns whether the label was newly added. -/
def addLabel (env : Env) (snapshot : List String) (w : St) (newLabel : String) :
    Bool × St :=
  if snapshot.contains newLabel then (false, w)
  else
    let failed := env.fail w.calls.length
    let w1 := { w with calls := w.calls ++ [ApiCall.addLabels newLabel] }
    if failed then (false, { w1 with errors := w1.errors ++ ["AddLabelsToIssue"] })
    else (true, { w1 with labels := w1.labels ++ [newLabel] })

/-- `deleteLabel`: skip the API request when the label is absent from the
payload snapshot; otherwise attempt `RemoveLabelForIssue`. -/
def deleteLabel (env : Env) (snapshot : List String) (w : St) (oldLabel : String) :
    Bool × St :=
  if snapshot.contains oldLabel then
    let failed := env.fail w.calls.length
    let w1 := { w with calls := w.calls ++ [ApiCall.removeLabel oldLabel] }
    if failed then (false, { w1 with errors := w1.errors ++ ["RemoveLabelForIssue"] })
    else (true, { w1 with labels := w1.labels.filter (fun l => l ≠ oldLabel) })
  else (false, w)

/-- `addComment`: attempt `CreateComment`. -/
def addComment (env : Env) (w : St) (body : String) : Bool × St :=
  let failed := env.fail w.calls.length
  let w1 := { w with calls := w.calls ++ [ApiCall.createComment body] }
  if failed then (false, { w1 with errors := w1.errors ++ ["CreateComment"] })
  else (true, { w1 with comments := w1.comments ++ [body] })

/-- `getCompletedMilestones`: attempt `ListMilestones` (closed, by due date
descending); on failure report the error and return the empty list (Go
returns nil). -/
def getCompletedMilestones (env : Env) (w : St) : List String × St :=
  let failed := env.fail w.calls.length
  let w1 := { w with calls := w.calls ++ [ApiCall.listMilestones] }
  if failed then ([], { w1 with errors := w1.errors ++ ["ListMilestones"] })
  else (env.milestones, w1)

/-- `closeIssue`: attempt `Edit` with state "closed" and state reason
"not_planned". -/
def closeIssue (env : Env) (w : St) : Bool × St :=
  let failed := env.fail w.calls.length
  let w1 := { w with calls := w.calls ++ [ApiCall.editIssue "closed" "not_planned"] }
  if failed then (false, { w1 with errors := w1.errors ++ ["Edit"] })
  else (true, { w1 with closed := true, closedReason := some "not_planned" })

/-! ### Webhook payloads -/

structure IssueData where
  title : String
  body : String
  labels : List String
  userLogin : String
deriving DecidableEq

structure IssuesEvent where
  action : String
  issue : IssueData
deriving DecidableEq

structure CommentData where
  userLogin : String
  body : String
deriving DecidableEq

structure IssueCommentEvent where
  issue : IssueData
  comment : CommentData
deriving DecidableEq

/-! ### Canned comment texts (copied from the handler source) -/

def policyComment : String :=
  "Please note that new features which require additional configuration will usually not be considered. We are happy with the feature set of i3 and want to focus in fixing bugs instead. We do accept feature requests, however, and will evaluate whether the added benefit (clearly) outweighs the complexity it adds to i3.\n\nKeep in mind that i3 provides a powerful way to interact with it through its IPC interface: https://i3wm.org/docs/ipc.html."

def missingLogComment : String :=
  "I don’t see a link to logs.i3wm.org. Did you follow https://i3wm.org/docs/debugging.html? (In case you actually provided a link to a logfile, please ignore me.)"

def missingVersionComment : String :=
  "I don’t see a version number. Could you please copy & paste the output of `i3 --version` into this issue?"

def upgradeComment (old latest : String) : String :=
  "Sorry, we can only support the latest major version. Please upgrade from " ++
    old ++ " to " ++ latest ++ ", verify the bug still exists, and re-open this issue."

/-- The `for strings.HasSuffix(majorVersion, ".")` trimming loop. -/
def trimTrailingDots (s : String) : String :=
  String.mk ((s.data.reverse.dropWhile (fun c => c = '.')).reverse)

/-! ### The two event pipelines -/

/-- The log-link and version-check tail of `issuesHandler` (reached when the
enhancement/documentation classification did not return early). -/
def issuesVersionPart (env : Env) (ev : IssuesEvent) (st : St) : St :=
  let snapshot := ev.issue.labels
  let lcBody := lowerAscii ev.issue.body.data
  let st1 :=
    if containsStr "://logs.i3wm.org" lcBody = false then
      let r := addLabel env snapshot st "missing-log"
      if r.1 then (addComment env r.2 missingLogComment).2 else r.2
    else st
  let mres := extractVersion ev.issue.body
  if mres.length = 0 then
    let r := addLabel env snapshot st1 "missing-version"
    if r.1 then (addComment env r.2 missingVersionComment).2 else r.2
  else
    if mres.getD 1 "" ≠ "i3" then st1
    else
      let rm := getCompletedMilestones env st1
      if rm.1 = [] then rm.2
      else
        let majorVersion := trimTrailingDots (mres.getD 2 "")
        if rm.1.getD 0 "" ≠ majorVersion then
          let r := addLabel env snapshot rm.2 "unsupported-version"
          if r.1 then
            let rc := addComment env r.2 (upgradeComment majorVersion (rm.1.getD 0 ""))
            (closeIssue env rc.2).2
          else r.2
        else (addLabel env snapshot rm.2 (rm.1.getD 0 "")).2

/-- The issue-opened pipeline: the body of `issuesHandler` after a verified
request has been parsed (new AppEngine generation of the handler file). -/
def issuesPipeline (env : Env) (ev : IssuesEvent) (st : St) : St :=
  if ev.action ≠ "opened" then st
  else
    let lcBody := lowerAscii ev.issue.body.data
    let lcTitle := lowerAscii ev.issue.title.data
    let snapshot := ev.issue.labels
    if matchAnywhereB enhancementPat lcBody || enhancementTitleMatch lcTitle then
      let r1 := addLabel env snapshot st "enhancement"
      let st1 :=
        if matchAnywhereB newConfigurationPat lcBody then
          (addLabel env snapshot r1.2 "requires-configuration").2
        else r1.2
      (addComment env st1 policyComment).2
    else if matchAnywhereB documentationPat lcBody then
      (addLabel env snapshot st "documentation").2
    else
      let stB :=
        if matchAnywhereB bugPat lcBody then (addLabel env snapshot st "bug").2
        else st
      issuesVersionPart env ev stB

/-- The comment-created pipeline: the body of `issueCommentHandler` after a
verified request has been parsed. -/
def commentPipeline (env : Env) (ev : IssueCommentEvent) (st : St) : St :=
  if ev.issue.userLogin ≠ ev.comment.userLogin then st
  else
    let snapshot := ev.issue.labels
    let hasMV := snapshot.contains "missing-version"
    let hasUV := snapshot.contains "unsupported-version"
    let hasML := snapshot.contains "missing-log"
    if !hasMV && !hasUV && !hasML then st
    else
      let st1 :=
        if hasML && containsStr "://logs.i3wm.org" ev.comment.body.data then
          (deleteLabel env snapshot st "missing-log").2
        else st
      if hasMV || hasUV then
        let mres := extractVersion ev.comment.body
        if mres.length = 0 then st1
        else
          let st2 := (deleteLabel env snapshot st1 "missing-version").2
          if mres.getD 1 "" ≠ "i3" then st2
          else
            let rm := getCompletedMilestones env st2
            if rm.1 = [] then rm.2
            else
              let majorVersion := trimTrailingDots (mres.getD 2 "")
              if rm.1.getD 0 "" ≠ majorVersion then
                let r := addLabel env snapshot rm.2 "unsupported-version"
                if r.1 then
                  let rc := addComment env r.2 (upgradeComment majorVersion (rm.1.getD 0 ""))
                  (closeIssue env rc.2).2
                else r.2
              else
                let r := addLabel env snapshot rm.2 (rm.1.getD 0 "")
                (deleteLabel env snapshot r.2 "unsupported-version").2
      else st1

/-! ### The HMAC verification wrapper and the full handlers -/

/-- An inbound webhook request: the two headers (the empty string when absent,
as Go's `Header.Get` reports them) and the raw body. -/
structure Request where
  eventHeader : String
  sigHeader : String
  body : Chars

def hexDigitVal (c : Char) : Option Nat :=
  let n := c.toNat
  if 0x30 ≤ n && n ≤ 0x39 then some (n - 0x30)
  else if 0x61 ≤ n && n ≤ 0x66 then some (n - 0x61 + 10)
  else if 0x41 ≤ n && n ≤ 0x46 then some (n - 0x41 + 10)
  else none

/-- `hex.DecodeString` (errors on odd length or an invalid digit). -/
def hexDecode : Chars → Option (List Nat)
  | [] => some []
  | [_] => none
  | a :: b :: rest =>
    match hexDigitVal a, hexDigitVal b, hexDecode rest with
    | some x, some y, some ds => some ((x * 16 + y) :: ds)
    | _, _, _ => none

/-- `readAndVerifyBody`: header checks first, then the body is read through
the HMAC step (recorded by the `hashedBody` trace marker), then the
constant-time compare. The HMAC itself is an abstract parameter `mac`.
JSON is never touched here. -/
def readAndVerifyBody (mac : String → Chars → List Nat) (secret : String)
    (req : Request) : List HStep × Except String (Chars × String) :=
  if req.eventHeader = "" then ([], Except.error "X-GitHub-Event header missing")
  else if req.sigHeader = "" then ([], Except.error "X-Hub-Signature missing")
  else
    match dropLit "sha1=".data req.sigHeader.data with
    | none => ([], Except.error "X-Hub-Signature does not start with sha1=")
    | some sigHex =>
      match hexDecode sigHex with
      | none => ([], Except.error "Error decoding X-Hub-Signature")
      | some want =>
        let got := mac secret req.body
        if want = got then ([HStep.hashedBody], Except.ok (req.body, req.eventHeader))
        else ([HStep.hashedBody], Except.error "X-Hub-Signature wrong")

/-- `issuesHandler`: credential load, signature verification, event filter,
JSON parse (abstract parameter `parse`; the `jsonParsed` marker records the
attempt), then the opened pipeline. -/
def issuesHandler (mac : String → Chars → List Nat)
    (parse : Chars → Option IssuesEvent) (secret : String) (env : Env)
    (req : Request) : St :=
  if env.tokenLoadFails then { initSt [] with errors := ["getGitHubToken"] }
  else
    let vr := readAndVerifyBody mac secret req
    match vr.2 with
    | Except.error e => { initSt [] with trace := vr.1, errors := [e] }
    | Except.ok br =>
      if br.2 = "ping" then { initSt [] with trace := vr.1 }
      else if br.2 ≠ "issues" then
        { initSt [] with trace := vr.1, errors := ["Expected X-GitHub-Event: issues"] }
      else
        match parse br.1 with
        | none =>
          { initSt [] with
              trace := vr.1 ++ [HStep.jsonParsed]
              errors := ["Cannot parse JSON"] }
        | some payload =>
          issuesPipeline env payload
            { initSt payload.issue.labels with trace := vr.1 ++ [HStep.jsonParsed] }

/-- `issueCommentHandler`: same wrapper for the comment pipeline. -/
def issueCommentHandler (mac : String → Chars → List Nat)
    (parse : Chars → Option IssueCommentEvent) (secret : String) (env : Env)
    (req : Request) : St :=
  if env.tokenLoadFails then { initSt [] with errors := ["getGitHubToken"] }
  else
    let vr := readAndVerifyBody mac secret req
    match vr.2 with
    | Except.error e => { initSt [] with trace := vr.1, errors := [e] }
    | Except.ok br =>
      if br.2 = "ping" then { initSt [] with trace := vr.1 }
      else if br.2 ≠ "issue_comment" then
        { initSt [] with trace := vr.1, errors := ["Expected X-GitHub-Event: issue_comment"] }
      else
        match parse br.1 with
        | none =>
          { initSt [] with
              trace := vr.1 ++ [HStep.jsonParsed]
              errors := ["Cannot parse JSON"] }
        | some payload =>
          commentPipeline env payload
            { initSt payload.issue.labels with trace := vr.1 ++ [HStep.jsonParsed] }

/-! ### Rewriting lemmas for the tracker primitives -/

theorem addLabel_skip {env : Env} {snapshot : List String} {w : St} {l : String}
    (h : snapshot.contains l = true) : addLabel env snapshot w l = (false, w) := by
  simp only [addLabel, h, if_true]

theorem addLabel_new_ok {env : Env} {snapshot : List String} {w : St} {l : String}
    (h : snapshot.contains l = false) (hf : env.fail w.calls.length = false) :
    addLabel env snapshot w l =
      (true, { w with
        calls := w.calls ++ [ApiCall.addLabels l]
        labels := w.labels ++ [l] }) := by
  simp only [addLabel, h, hf, Bool.false_eq_true, if_false]

theorem addLabel_new_fail {env : Env} {snapshot : List String} {w : St} {l : String}
    (h : snapshot.contains l = false) (hf : env.fail w.calls.length = true) :
    addLabel env snapshot w l =
      (false, { w with
        calls := w.calls ++ [ApiCall.addLabels l]
        errors := w.errors ++ ["AddLabelsToIssue"] }) := by
  simp only [addLabel, h, hf, Bool.false_eq_true, if_false, if_true]

theorem deleteLabel_skip {env : Env} {snapshot : List String} {w : St} {l : String}
    (h : snapshot.contains l = false) : deleteLabel env snapshot w l = (false, w) := by
  simp only [deleteLabel, h, Bool.false_eq_true, if_false]

theorem deleteLabel_ok {env : Env} {snapshot : List String} {w : St} {l : String}
    (h : snapshot.contains l = true) (hf : env.fail w.calls.length = false) :
    deleteLabel env snapshot w l =
      (true, { w with
        calls := w.calls ++ [ApiCall.removeLabel l]
        labels := w.labels.filter (fun x => x ≠ l) }) := by
  simp only [deleteLabel, h, hf, Bool.false_eq_true, if_false, if_true]

theorem deleteLabel_fail {env : Env} {snapshot : List String} {w : St} {l : String}
    (h : snapshot.contains l = true) (hf : env.fail w.calls.length = true) :
    deleteLabel env snapshot w l =
      (false, { w with
        calls := w.calls ++ [ApiCall.removeLabel l]
        errors := w.errors ++ ["RemoveLabelForIssue"] }) := by
  simp only [deleteLabel, h, hf, if_true]

theorem addComment_ok {env : Env} {w : St} {b : String}
    (hf : env.fail w.calls.length = false) :
    addComment env w b =
      (true, { w with
        calls := w.calls ++ [ApiCall.createComment b]
        comments := w.comments ++ [b] }) := by
  simp only [addComment, hf, Bool.false_eq_true, if_false]

theorem addComment_fail {env : Env} {w : St} {b : String}
    (hf : env.fail w.calls.length = true) :
    addComment env w b =
      (false, { w with
        calls := w.calls ++ [ApiCall.createComment b]
        errors := w.errors ++ ["CreateComment"] }) := by
  simp only [addComment, hf, if_true]

theorem getCompletedMilestones_ok {env : Env} {w : St}
    (hf : env.fail w.calls.length = false) :
    getCompletedMilestones env w =
      (env.milestones, { w with calls := w.calls ++ [ApiCall.listMilestones] }) := by
  simp only [getCompletedMilestones, hf, Bool.false_eq_true, if_false]

theorem getCompletedMilestones_fail {env : Env} {w : St}
    (hf : env.fail w.calls.length = true) :
    getCompletedMilestones env w =
      ([], { w with
        calls := w.calls ++ [ApiCall.listMilestones]
        errors := w.errors ++ ["ListMilestones"] }) := by
  simp only [getCompletedMilestones, hf, if_true]

theorem closeIssue_ok {env : Env} {w : St}
    (hf : env.fail w.calls.length = false) :
    closeIssue env w =
      (true, { w with
        calls := w.calls ++ [ApiCall.editIssue "closed" "not_planned"]
        closed := true
        closedReason := some "not_planned" }) := by
  simp only [closeIssue, hf, Bool.false_eq_true, if_false]

theorem closeIssue_fail {env : Env} {w : St}
    (hf : env.fail w.calls.length = true) :
    closeIssue env w =
      (false, { w with
        calls := w.calls ++ [ApiCall.editIssue "closed" "not_planned"]
        errors := w.errors ++ ["Edit"] }) := by
  simp only [closeIssue, hf, if_true]

/-! ### C6: client-side idempotence of the label mutations -/

/-- C6: adding a label that is already in the snapshot performs no API call
and reports not-newly-added; removing an absent label performs no API call;
and against the state resulting from a successful add (or remove), repeating
the same request is a no-op. -/
theorem label_mutation_idempotent (env : Env) (w : St) (snapshot : List String)
    (l : String) :
    (snapshot.contains l = true → addLabel env snapshot w l = (false, w)) ∧
    (snapshot.contains l = false → deleteLabel env snapshot w l = (false, w)) ∧
    (snapshot.contains l = false → env.fail w.calls.length = false →
      (addLabel env snapshot w l).1 = true ∧
      (addLabel env snapshot w l).2.labels.contains l = true ∧
      addLabel env (addLabel env snapshot w l).2.labels
        (addLabel env snapshot w l).2 l = (false, (addLabel env snapshot w l).2)) ∧
    (snapshot.contains l = true → env.fail w.calls.length = false →
      (deleteLabel env snapshot w l).1 = true ∧
      (deleteLabel env snapshot w l).2.labels.contains l = false ∧
      deleteLabel env (deleteLabel env snapshot w l).2.labels
        (deleteLabel env snapshot w l).2 l = (false, (deleteLabel env snapshot w l).2)) := by
  refine ⟨fun h => addLabel_skip h, fun h => deleteLabel_skip h, ?_, ?_⟩
  · intro h hf
    rw [addLabel_new_ok h hf]
    refine ⟨rfl, ?_, ?_⟩
    · simp
    · exact addLabel_skip (by simp)
  · intro h hf
    rw [deleteLabel_ok h hf]
    refine ⟨rfl, ?_, ?_⟩
    · simp
    · exact deleteLabel_skip (by simp)

def envAllOk : Env := { fail := fun _ => false, milestones := [], tokenLoadFails := false }

/-- C6 witness at concrete inputs. -/
theorem label_mutation_idempotent_witness :
    addLabel envAllOk ["bug"] (initSt ["bug"]) "bug" = (false, initSt ["bug"]) ∧
    deleteLabel envAllOk [] (initSt []) "bug" = (false, initSt []) ∧
    addLabel envAllOk (addLabel envAllOk [] (initSt []) "bug").2.labels
      (addLabel envAllOk [] (initSt []) "bug").2 "bug" =
      (false, (addLabel envAllOk [] (initSt []) "bug").2) :=
  ⟨(label_mutation_idempotent envAllOk (initSt ["bug"]) ["bug"] "bug").1 (by decide),
   (label_mutation_idempotent envAllOk (initSt []) [] "bug").2.1 (by decide),
   ((label_mutation_idempotent envAllOk (initSt []) [] "bug").2.2.1 (by decide)
      (by decide)).2.2⟩

/-! ### C9: comments by someone other than the issue author -/

/-- C9: the comment-created pipeline performs no mutation at all when the
commenter is not the original issue author. -/
theorem commentPipeline_other_author (env : Env) (ev : IssueCommentEvent)
    (h : ev.issue.userLogin ≠ ev.comment.userLogin) :
    commentPipeline env ev (initSt ev.issue.labels) = initSt ev.issue.labels := by
  unfold commentPipeline
  rw [if_pos h]

/-- C9 witness: a concrete comment by a different user, with every pending
label present, changes nothing. -/
theorem commentPipeline_other_author_witness :
    commentPipeline envAllOk
      { issue := { title := "t", body := "b", labels := ["missing-version"],
                   userLogin := "author" },
        comment := { userLogin := "other", body := "i3 version 4.12" } }
      (initSt ["missing-version"]) = initSt ["missing-version"] :=
  commentPipeline_other_author envAllOk
    { issue := { title := "t", body := "b", labels := ["missing-version"],
                 userLogin := "author" },
      comment := { userLogin := "other", body := "i3 version 4.12" } }
    (by decide)

/-! ### C5: enhancement classification short-circuits everything else -/

/-- C5: when enhancement intent is detected on an opened issue (checkbox
marker in the lowercased body or keyword in the lowercased title), the engine
adds "enhancement" (when newly added), additionally adds
"requires-configuration" when the body carries that marker, posts exactly the
policy-explanation comment and stops: the attempted API calls are exactly
those three (at most), so no documentation, bug, log, version or close
activity happens — even when the body also carries a bug marker. -/
theorem issuesPipeline_enhancement (env : Env) (ev : IssuesEvent)
    (ha : ev.action = "opened")
    (henh : (matchAnywhereB enhancementPat (lowerAscii ev.issue.body.data) ||
      enhancementTitleMatch (lowerAscii ev.issue.title.data)) = true)
    (henv : ∀ k, env.fail k = false) :
    (issuesPipeline env ev (initSt ev.issue.labels)).calls =
      ((if ev.issue.labels.contains "enhancement" = true then []
        else [ApiCall.addLabels "enhancement"]) ++
       (if matchAnywhereB newConfigurationPat (lowerAscii ev.issue.body.data) = true then
          (if ev.issue.labels.contains "requires-configuration" = true then []
           else [ApiCall.addLabels "requires-configuration"])
        else []) ++
       [ApiCall.createComment policyComment]) ∧
    (issuesPipeline env ev (initSt ev.issue.labels)).comments = [policyComment] ∧
    (issuesPipeline env ev (initSt ev.issue.labels)).closed = false ∧
    (issuesPipeline env ev (initSt ev.issue.labels)).closedReason = none := by
  have h0 : ¬ (ev.action ≠ "opened") := by simp [ha]
  simp only [issuesPipeline]
  rw [if_neg h0, if_pos henh]
  cases hcon : ev.issue.labels.contains "enhancement" with
  | true =>
    rw [addLabel_skip hcon]
    cases hnc : matchAnywhereB newConfigurationPat (lowerAscii ev.issue.body.data) with
    | false => simp [addComment_ok, henv, initSt, hcon]
    | true =>
      cases hcon2 : ev.issue.labels.contains "requires-configuration" with
      | true => simp [addLabel_skip hcon2, addComment_ok, henv, initSt, hcon]
      | false => simp [addLabel_new_ok hcon2, addComment_ok, henv, initSt, hcon]
  | false =>
    rw [addLabel_new_ok hcon (henv _)]
    cases hnc : matchAnywhereB newConfigurationPat (lowerAscii ev.issue.body.data) with
    | false => simp [addComment_ok, henv, initSt, hcon]
    | true =>
      cases hcon2 : ev.issue.labels.contains "requires-configuration" with
      | true => simp [addLabel_skip hcon2, addComment_ok, henv, initSt, hcon]
      | false => simp [addLabel_new_ok hcon2, addComment_ok, henv, initSt, hcon]

set_option maxRecDepth 40000 in
/-- C5 witness: a body with both the enhancement and the bug checkbox marker
on a fresh issue yields exactly the enhancement label and the policy comment
(no "bug" label). -/
theorem issuesPipeline_enhancement_witness :
    (issuesPipeline envAllOk
      { action := "opened",
        issue := { title := "t", body := "[x] feature request [x] bug",
                   labels := [], userLogin := "u" } }
      (initSt [])).calls =
      [ApiCall.addLabels "enhancement", ApiCall.createComment policyComment] := by
  have h := issuesPipeline_enhancement envAllOk
    { action := "opened",
      issue := { title := "t", body := "[x] feature request [x] bug",
                 labels := [], userLogin := "u" } }
    rfl (by decide) (fun _ => rfl)
  rw [h.1]
  decide

/-! ### Reduction lemmas for the opened pipeline -/

/-- When no classification pattern matches, the opened pipeline falls through
to the log-link and version checks. -/
theorem issuesPipeline_to_versionPart (env : Env) (ev : IssuesEvent) (st : St)
    (ha : ev.action = "opened")
    (henh : matchAnywhereB enhancementPat (lowerAscii ev.issue.body.data) = false)
    (henhT : enhancementTitleMatch (lowerAscii ev.issue.title.data) = false)
    (hdoc : matchAnywhereB documentationPat (lowerAscii ev.issue.body.data) = false)
    (hbug : matchAnywhereB bugPat (lowerAscii ev.issue.body.data) = false) :
    issuesPipeline env ev st = issuesVersionPart env ev st := by
  have h0 : ¬ (ev.action ≠ "opened") := by simp [ha]
  simp only [issuesPipeline]
  rw [if_neg h0, if_neg (by simp [henh, henhT]), if_neg (by simp [hdoc]),
    if_neg (by simp [hbug])]

/-- With a log link present and an extracted primary-product version that
differs from the most recent closed milestone, the version part reduces to
the milestone fetch followed by the guarded unsupported-version block. -/
theorem issuesVersionPart_unsupported (env : Env) (ev : IssuesEvent) (st : St)
    (v : String)
    (hlog : containsStr "://logs.i3wm.org" (lowerAscii ev.issue.body.data) = true)
    (hext : extractVersion ev.issue.body = ["", "i3", v])
    (hf1 : env.fail st.calls.length = false)
    (hms : env.milestones ≠ [])
    (hdiff : env.milestones.getD 0 "" ≠ trimTrailingDots v) :
    issuesVersionPart env ev st =
      (if (addLabel env ev.issue.labels
            { st with calls := st.calls ++ [ApiCall.listMilestones] }
            "unsupported-version").1 = true then
        (closeIssue env (addComment env
          (addLabel env ev.issue.labels
            { st with calls := st.calls ++ [ApiCall.listMilestones] }
            "unsupported-version").2
          (upgradeComment (trimTrailingDots v) (env.milestones.getD 0 ""))).2).2
      else
        (addLabel env ev.issue.labels
          { st with calls := st.calls ++ [ApiCall.listMilestones] }
          "unsupported-version").2) := by
  simp only [issuesVersionPart]
  simp [hext, hlog, hms, hdiff, getCompletedMilestones_ok, hf1]
  intro h
  rw [List.getD_eq_getElem?_getD] at hdiff
  exact absurd h hdiff

/-! ### C4: the unsupported-version outcome of the opened pipeline -/

/-- C4: on an opened issue that is not classified as enhancement or
documentation, has a log link, and whose extracted "i3" version differs from
the most recent closed milestone title: when "unsupported-version" is not yet
on the issue the engine adds it, posts the upgrade comment naming the old and
new version and closes the issue with the "not_planned" reason; when the
label is already present no comment is posted and the issue is not closed
(the only API call is the milestone fetch). -/
theorem issuesPipeline_unsupported_version (env : Env) (ev : IssuesEvent)
    (v : String)
    (ha : ev.action = "opened")
    (henh : matchAnywhereB enhancementPat (lowerAscii ev.issue.body.data) = false)
    (henhT : enhancementTitleMatch (lowerAscii ev.issue.title.data) = false)
    (hdoc : matchAnywhereB documentationPat (lowerAscii ev.issue.body.data) = false)
    (hbug : matchAnywhereB bugPat (lowerAscii ev.issue.body.data) = false)
    (hlog : containsStr "://logs.i3wm.org" (lowerAscii ev.issue.body.data) = true)
    (hext : extractVersion ev.issue.body = ["", "i3", v])
    (henv : ∀ k, env.fail k = false)
    (hms : env.milestones ≠ [])
    (hdiff : env.milestones.getD 0 "" ≠ trimTrailingDots v) :
    (ev.issue.labels.contains "unsupported-version" = false →
      issuesPipeline env ev (initSt ev.issue.labels) =
        { labels := ev.issue.labels ++ ["unsupported-version"]
          calls := [ApiCall.listMilestones, ApiCall.addLabels "unsupported-version",
            ApiCall.createComment
              (upgradeComment (trimTrailingDots v) (env.milestones.getD 0 "")),
            ApiCall.editIssue "closed" "not_planned"]
          comments := [upgradeComment (trimTrailingDots v) (env.milestones.getD 0 "")]
          closed := true
          closedReason := some "not_planned"
          errors := []
          trace := [] }) ∧
    (ev.issue.labels.contains "unsupported-version" = true →
      issuesPipeline env ev (initSt ev.issue.labels) =
        { initSt ev.issue.labels with calls := [ApiCall.listMilestones] }) := by
  rw [issuesPipeline_to_versionPart env ev _ ha henh henhT hdoc hbug,
    issuesVersionPart_unsupported env ev _ v hlog hext (henv _) hms hdiff]
  constructor
  · intro hcon
    rw [addLabel_new_ok hcon (henv _)]
    rw [addComment_ok (henv _), closeIssue_ok (henv _)]
    simp [initSt]
  · intro hcon
    rw [addLabel_skip hcon]
    simp [initSt]

def envMil410 : Env :=
  { fail := fun _ => false, milestones := ["4.10"], tokenLoadFails := false }

def evScenarioB : IssuesEvent :=
  { action := "opened",
    issue := { title := "crash", body := "i3 version: 4.9 see https://logs.i3wm.org/logs/1.bz2",
               labels := [], userLogin := "u" } }

set_option maxRecDepth 100000 in
/-- C4 witness: spec scenario B — body version "4.9", current closed
milestone "4.10": the engine adds "unsupported-version", posts the 4.9→4.10
upgrade comment and closes with "not_planned". -/
theorem issuesPipeline_unsupported_version_witness :
    issuesPipeline envMil410 evScenarioB (initSt evScenarioB.issue.labels) =
      { labels := ["unsupported-version"]
        calls := [ApiCall.listMilestones, ApiCall.addLabels "unsupported-version",
          ApiCall.createComment (upgradeComment "4.9" "4.10"),
          ApiCall.editIssue "closed" "not_planned"]
        comments := [upgradeComment "4.9" "4.10"]
        closed := true
        closedReason := some "not_planned"
        errors := []
        trace := [] } := by
  have h := (issuesPipeline_unsupported_version envMil410 evScenarioB "4.9"
    rfl (by decide) (by decide) (by decide) (by decide) (by decide) (by decide)
    (fun _ => rfl) (by decide) (by decide)).1 (by decide)
  rw [h]
  rfl

/-! ### C2: a failed mutation is reported but does not abort the pipeline -/

def envFailFirst : Env :=
  { fail := fun n => n = 0, milestones := ["4.12"], tokenLoadFails := false }

def evC2 : IssuesEvent :=
  { action := "opened",
    issue := { title := "segfault", body := "i3 version 4.12", labels := [],
               userLogin := "u" } }

set_option maxRecDepth 100000 in
/-- C2 counterexample: the very first attempted mutation (adding
"missing-log") fails and is reported, yet the pipeline run continues: it
still lists the milestones and adds the milestone label afterwards, so later
steps do execute after the first failed mutation. -/
theorem pipeline_continues_after_failed_mutation :
    envFailFirst.fail 0 = true ∧
    (issuesPipeline envFailFirst evC2 (initSt evC2.issue.labels)).errors =
      ["AddLabelsToIssue"] ∧
    (issuesPipeline envFailFirst evC2 (initSt evC2.issue.labels)).calls =
      [ApiCall.addLabels "missing-log", ApiCall.listMilestones,
        ApiCall.addLabels "4.12"] := by
  refine ⟨rfl, ?_, ?_⟩ <;> decide

/-- C2 amended: a failed mutation reports the error to the caller (an
`http.Error` record appears) and only suppresses the steps guarded by that
mutation's boolean result — here a failed add of "unsupported-version"
suppresses the upgrade comment and the close — while the rest of the pipeline
still runs rather than aborting. -/
theorem issuesPipeline_failed_mutation_reports_and_skips (env : Env)
    (ev : IssuesEvent) (v : String)
    (ha : ev.action = "opened")
    (henh : matchAnywhereB enhancementPat (lowerAscii ev.issue.body.data) = false)
    (henhT : enhancementTitleMatch (lowerAscii ev.issue.title.data) = false)
    (hdoc : matchAnywhereB documentationPat (lowerAscii ev.issue.body.data) = false)
    (hbug : matchAnywhereB bugPat (lowerAscii ev.issue.body.data) = false)
    (hlog : containsStr "://logs.i3wm.org" (lowerAscii ev.issue.body.data) = true)
    (hext : extractVersion ev.issue.body = ["", "i3", v])
    (hf0 : env.fail 0 = false)
    (hms : env.milestones ≠ [])
    (hdiff : env.milestones.getD 0 "" ≠ trimTrailingDots v)
    (hcon : ev.issue.labels.contains "unsupported-version" = false)
    (hf1 : env.fail 1 = true) :
    issuesPipeline env ev (initSt ev.issue.labels) =
      { initSt ev.issue.labels with
        calls := [ApiCall.listMilestones, ApiCall.addLabels "unsupported-version"]
        errors := ["AddLabelsToIssue"] } := by
  rw [issuesPipeline_to_versionPart env ev _ ha henh henhT hdoc hbug,
    issuesVersionPart_unsupported env ev (initSt ev.issue.labels) v hlog hext
      hf0 hms hdiff,
    addLabel_new_fail hcon hf1]
  simp [initSt]

def envFailSecond : Env :=
  { fail := fun n => n = 1, milestones := ["4.10"], tokenLoadFails := false }

set_option maxRecDepth 100000 in
/-- C2 amended witness: when the add of "unsupported-version" fails, the
error is reported and no comment or close follows. -/
theorem issuesPipeline_failed_mutation_witness :
    issuesPipeline envFailSecond evScenarioB (initSt evScenarioB.issue.labels) =
      { initSt evScenarioB.issue.labels with
        calls := [ApiCall.listMilestones, ApiCall.addLabels "unsupported-version"]
        errors := ["AddLabelsToIssue"] } :=
  issuesPipeline_failed_mutation_reports_and_skips envFailSecond evScenarioB "4.9"
    rfl (by decide) (by decide) (by decide) (by decide) (by decide) (by decide)
    rfl (by decide) (by decide) (by decide) rfl

/-! ### Trace preservation: the pipelines never touch the verify/parse trace -/

theorem addLabel_trace (env : Env) (s : List String) (w : St) (l : String) :
    (addLabel env s w l).2.trace = w.trace := by
  simp only [addLabel]
  split
  · rfl
  · split <;> rfl

theorem deleteLabel_trace (env : Env) (s : List String) (w : St) (l : String) :
    (deleteLabel env s w l).2.trace = w.trace := by
  simp only [deleteLabel]
  split
  · split <;> rfl
  · rfl

theorem addComment_trace (env : Env) (w : St) (b : String) :
    (addComment env w b).2.trace = w.trace := by
  simp only [addComment]
  split <;> rfl

theorem getCompletedMilestones_trace (env : Env) (w : St) :
    (getCompletedMilestones env w).2.trace = w.trace := by
  simp only [getCompletedMilestones]
  split <;> rfl

theorem closeIssue_trace (env : Env) (w : St) :
    (closeIssue env w).2.trace = w.trace := by
  simp only [closeIssue]
  split <;> rfl

theorem issuesVersionPart_trace (env : Env) (ev : IssuesEvent) (st : St) :
    (issuesVersionPart env ev st).trace = st.trace := by
  simp only [issuesVersionPart]
  repeat' split
  all_goals
    simp [addLabel_trace, deleteLabel_trace, addComment_trace,
      getCompletedMilestones_trace, closeIssue_trace]

theorem issuesPipeline_trace (env : Env) (ev : IssuesEvent) (st : St) :
    (issuesPipeline env ev st).trace = st.trace := by
  simp only [issuesPipeline]
  repeat' split
  all_goals
    simp [issuesVersionPart_trace, addLabel_trace, addComment_trace]

theorem commentPipeline_trace (env : Env) (ev : IssueCommentEvent) (st : St) :
    (commentPipeline env ev st).trace = st.trace := by
  simp only [commentPipeline]
  repeat' split
  all_goals
    simp [addLabel_trace, deleteLabel_trace, addComment_trace,
      getCompletedMilestones_trace, closeIssue_trace]

/-- The verifier either rejects without having read the body (header checks),
rejects after hashing the body, or accepts after hashing the body. -/
theorem readAndVerifyBody_cases (mac : String → Chars → List Nat)
    (secret : String) (req : Request) :
    (∃ e, readAndVerifyBody mac secret req = ([], Except.error e)) ∨
    (∃ e, readAndVerifyBody mac secret req = ([HStep.hashedBody], Except.error e)) ∨
    readAndVerifyBody mac secret req =
      ([HStep.hashedBody], Except.ok (req.body, req.eventHeader)) := by
  simp only [readAndVerifyBody]
  repeat' split
  all_goals
    first
      | exact Or.inl ⟨_, rfl⟩
      | exact Or.inr (Or.inl ⟨_, rfl⟩)
      | exact Or.inr (Or.inr rfl)

/-! ### C3: verification precedes parsing; rejected requests are inert -/

/-- C3: for every inbound request (with loadable credentials): (a) whenever
verification fails, each handler responds with just that error — no API call,
no comment, no close, and the body is never JSON-parsed; (b) the
verification trace itself never contains a parse step; (c) whenever a JSON
parse was attempted, the trace is exactly hash-then-parse, i.e. the raw body
went through the HMAC step first; (d) a missing signature header, a header
without the "sha1=" prefix, or an HMAC mismatch each make verification fail. -/
theorem webhook_verify_before_parse (mac : String → Chars → List Nat)
    (parse : Chars → Option IssuesEvent)
    (parseC : Chars → Option IssueCommentEvent) (secret : String) (env : Env)
    (req : Request) (htok : env.tokenLoadFails = false) :
    (∀ e, (readAndVerifyBody mac secret req).2 = Except.error e →
      issuesHandler mac parse secret env req =
        { initSt [] with trace := (readAndVerifyBody mac secret req).1,
                         errors := [e] } ∧
      issueCommentHandler mac parseC secret env req =
        { initSt [] with trace := (readAndVerifyBody mac secret req).1,
                         errors := [e] }) ∧
    (HStep.jsonParsed ∉ (readAndVerifyBody mac secret req).1) ∧
    (HStep.jsonParsed ∈ (issuesHandler mac parse secret env req).trace →
      (issuesHandler mac parse secret env req).trace =
        [HStep.hashedBody, HStep.jsonParsed]) ∧
    (HStep.jsonParsed ∈ (issueCommentHandler mac parseC secret env req).trace →
      (issueCommentHandler mac parseC secret env req).trace =
        [HStep.hashedBody, HStep.jsonParsed]) ∧
    (req.sigHeader = "" → ∃ e, (readAndVerifyBody mac secret req).2 = Except.error e) ∧
    (dropLit "sha1=".data req.sigHeader.data = none →
      ∃ e, (readAndVerifyBody mac secret req).2 = Except.error e) ∧
    (∀ sigHex want, req.eventHeader ≠ "" → req.sigHeader ≠ "" →
      dropLit "sha1=".data req.sigHeader.data = some sigHex →
      hexDecode sigHex = some want → want ≠ mac secret req.body →
      (readAndVerifyBody mac secret req).2 = Except.error "X-Hub-Signature wrong") := by
  refine ⟨?_, ?_, ?_, ?_, ?_, ?_, ?_⟩
  · intro e he
    constructor
    · simp only [issuesHandler, htok, Bool.false_eq_true, if_false]
      rw [he]
    · simp only [issueCommentHandler, htok, Bool.false_eq_true, if_false]
      rw [he]
  · rcases readAndVerifyBody_cases mac secret req with ⟨e, hv⟩ | ⟨e, hv⟩ | hv <;>
      rw [hv] <;> simp
  · rcases readAndVerifyBody_cases mac secret req with ⟨e, hv⟩ | ⟨e, hv⟩ | hv
    · have hh : issuesHandler mac parse secret env req =
          { initSt [] with trace := ([] : List HStep), errors := [e] } := by
        simp only [issuesHandler, htok, Bool.false_eq_true, if_false]
        rw [hv]
      rw [hh]
      intro hmem
      simp at hmem
    · have hh : issuesHandler mac parse secret env req =
          { initSt [] with trace := [HStep.hashedBody], errors := [e] } := by
        simp only [issuesHandler, htok, Bool.false_eq_true, if_false]
        rw [hv]
      rw [hh]
      intro hmem
      simp at hmem
    · intro hmem
      by_cases hping : req.eventHeader = "ping"
      · have hh : issuesHandler mac parse secret env req =
            { initSt [] with trace := [HStep.hashedBody] } := by
          simp only [issuesHandler, htok, Bool.false_eq_true, if_false]
          rw [hv]
          simp [hping]
        rw [hh] at hmem
        simp at hmem
      · by_cases hiss : req.eventHeader = "issues"
        · cases hp : parse req.body with
          | none =>
            have hh : issuesHandler mac parse secret env req =
                { initSt [] with trace := [HStep.hashedBody, HStep.jsonParsed],
                                 errors := ["Cannot parse JSON"] } := by
              simp only [issuesHandler, htok, Bool.false_eq_true, if_false]
              rw [hv]
              simp [hping, hiss, hp]
            rw [hh]
          | some payload =>
            have hh : issuesHandler mac parse secret env req =
                issuesPipeline env payload
                  { initSt payload.issue.labels with
                    trace := [HStep.hashedBody, HStep.jsonParsed] } := by
              simp only [issuesHandler, htok, Bool.false_eq_true, if_false]
              rw [hv]
              simp [hping, hiss, hp]
            rw [hh, issuesPipeline_trace]
        · have hh : issuesHandler mac parse secret env req =
              { initSt [] with trace := [HStep.hashedBody],
                               errors := ["Expected X-GitHub-Event: issues"] } := by
            simp only [issuesHandler, htok, Bool.false_eq_true, if_false]
            rw [hv]
            simp [hping, hiss]
          rw [hh] at hmem
          simp at hmem
  · rcases readAndVerifyBody_cases mac secret req with ⟨e, hv⟩ | ⟨e, hv⟩ | hv
    · have hh : issueCommentHandler mac parseC secret env req =
          { initSt [] with trace := ([] : List HStep), errors := [e] } := by
        simp only [issueCommentHandler, htok, Bool.false_eq_true, if_false]
        rw [hv]
      rw [hh]
      intro hmem
      simp at hmem
    · have hh : issueCommentHandler mac parseC secret env req =
          { initSt [] with trace := [HStep.hashedBody], errors := [e] } := by
        simp only [issueCommentHandler, htok, Bool.false_eq_true, if_false]
        rw [hv]
      rw [hh]
      intro hmem
      simp at hmem
    · intro hmem
      by_cases hping : req.eventHeader = "ping"
      · have hh : issueCommentHandler mac parseC secret env req =
            { initSt [] with trace := [HStep.hashedBody] } := by
          simp only [issueCommentHandler, htok, Bool.false_eq_true, if_false]
          rw [hv]
          simp [hping]
        rw [hh] at hmem
        simp at hmem
      · by_cases hiss : req.eventHeader = "issue_comment"
        · cases hp : parseC req.body with
          | none =>
            have hh : issueCommentHandler mac parseC secret env req =
                { initSt [] with trace := [HStep.hashedBody, HStep.jsonParsed],
                                 errors := ["Cannot parse JSON"] } := by
              simp only [issueCommentHandler, htok, Bool.false_eq_true, if_false]
              rw [hv]
              simp [hping, hiss, hp]
            rw [hh]
          | some payload =>
            have hh : issueCommentHandler mac parseC secret env req =
                commentPipeline env payload
                  { initSt payload.issue.labels with
                    trace := [HStep.hashedBody, HStep.jsonParsed] } := by
              simp only [issueCommentHandler, htok, Bool.false_eq_true, if_false]
              rw [hv]
              simp [hping, hiss, hp]
            rw [hh, commentPipeline_trace]
        · have hh : issueCommentHandler mac parseC secret env req =
              { initSt [] with trace := [HStep.hashedBody],
                               errors := ["Expected X-GitHub-Event: issue_comment"] } := by
            simp only [issueCommentHandler, htok, Bool.false_eq_true, if_false]
            rw [hv]
            simp [hping, hiss]
          rw [hh] at hmem
          simp at hmem
  · intro hsig
    by_cases hev : req.eventHeader = ""
    · exact ⟨"X-GitHub-Event header missing", by simp [readAndVerifyBody, hev]⟩
    · exact ⟨"X-Hub-Signature missing", by simp [readAndVerifyBody, hev, hsig]⟩
  · intro hdrop
    by_cases hev : req.eventHeader = ""
    · exact ⟨"X-GitHub-Event header missing", by simp [readAndVerifyBody, hev]⟩
    · by_cases hsig : req.sigHeader = ""
      · exact ⟨"X-Hub-Signature missing", by simp [readAndVerifyBody, hev, hsig]⟩
      · exact ⟨"X-Hub-Signature does not start with sha1=",
          by simp [readAndVerifyBody, hev, hsig, hdrop]⟩
  · intro sigHex want hev hsig hdropS hhex hne
    simp [readAndVerifyBody, hev, hsig, hdropS, hhex, hne]

def macW : String → Chars → List Nat := fun _ _ => []

def parseIW : Chars → Option IssuesEvent := fun _ => none

def parseCW : Chars → Option IssueCommentEvent := fun _ => none

def reqNoSig : Request := { eventHeader := "issues", sigHeader := "", body := [] }

/-- C3 witness: a request with the signature header missing is rejected by
both handlers without parsing or acting. -/
theorem webhook_verify_before_parse_witness :
    issuesHandler macW parseIW "s" envAllOk reqNoSig =
      { initSt [] with trace := (readAndVerifyBody macW "s" reqNoSig).1,
                       errors := ["X-Hub-Signature missing"] } ∧
    HStep.jsonParsed ∉ (issuesHandler macW parseIW "s" envAllOk reqNoSig).trace := by
  have h := webhook_verify_before_parse macW parseIW parseCW "s" envAllOk reqNoSig rfl
  have he : (readAndVerifyBody macW "s" reqNoSig).2 =
      Except.error "X-Hub-Signature missing" := rfl
  obtain ⟨h1, -⟩ := h.1 _ he
  refine ⟨h1, ?_⟩
  rw [h1]
  decide

end I3Bot
